import Mathlib

/-!
CensurDNS: the `sqlite` CoreDNS plugin (`src/sqlite/sqlite.go`)

A shallow embedding of `defaultAns` and `SqlitePlugin.ServeDNS`, followed by
theorems about the replies they write.

Modelling conventions.

* A Go `string` is a Lean `String`, one `Char` per byte.  DNS names reach the
  plugin in presentation format, which is printable ASCII (the DNS library
  escapes every other byte), so `len` is the number of characters and
  `strings.ToLower` is the ASCII lower-casing.
* A Go `error` value is the `String` of its message.
* The functions of other packages that the plugin calls and whose results
  depend on data outside this repository are parameters, collected in `Env`
  (`dns.TypeToString`, `publicsuffix.EffectiveTLDPlusOne`, `dns.NewRR`) and
  `DB` (`(*sql.DB).Query` together with `rows.Next` / `rows.Scan`).
* For the claims about what a lookup returns, the store behind `s.DB` is the
  list of the rows of its table `records`, in the order in which the store
  iterates over them, and `listDB` evaluates the statement that `ServeDNS`
  sends on that list.
* A handler either panics or returns `(int, error)` after some writes to the
  `dns.ResponseWriter`; `Outcome` records which.  `fmt.Println` diagnostics
  and `rows.Close` have no effect on the reply and are left out.
* In `defaultAns` the second `rr, err := ...` is read as the assignment
  `rr, err = ...` to the variables declared a few lines above.
-/

namespace CensurDNS

set_option maxRecDepth 100000

/-! ## Go strings -/

/-- Go `len(s)`. -/
def len (s : String) : Nat := s.data.length

/-- Go `strings.ToLower(s)`. -/
def ToLower (s : String) : String := ⟨s.data.map Char.toLower⟩

/-- Go `strings.HasSuffix(s, suffix)`. -/
def HasSuffix (s suffix : String) : Bool := suffix.data.isSuffixOf s.data

/-- Go `strings.TrimSuffix(s, suffix)`: `s` without the trailing `suffix`,
or `s` itself when it does not end in `suffix`. -/
def TrimSuffix (s suffix : String) : String :=
  if HasSuffix s suffix then ⟨s.data.take (len s - len suffix)⟩ else s

/-- Go `s[:hi]` for `hi ≤ len(s)`. -/
def slicePrefix (s : String) (hi : Nat) : String := ⟨s.data.take hi⟩

/-! ## The DNS message types used by the plugin -/

/-- The Go type `dns.Question`. -/
structure Question where
  Name : String
  Qtype : Nat
  Qclass : Nat
  deriving DecidableEq, Repr

/-- The Go type `dns.Msg`: the header fields that `SetReply` touches, the
question section and the three record sections, over the record type `RR`. -/
structure Msg (RR : Type) where
  Id : Nat
  Response : Bool
  Opcode : Nat
  RecursionDesired : Bool
  CheckingDisabled : Bool
  Rcode : Nat
  Question : List Question
  Answer : List RR
  Ns : List RR
  Extra : List RR
  deriving DecidableEq, Repr

/-- The constant `dns.RcodeSuccess`. -/
def RcodeSuccess : Nat := 0

/-- The constant `dns.OpcodeQuery`. -/
def OpcodeQuery : Nat := 0

/-- Go `new(dns.Msg)`: the zero value. -/
def Msg.new (RR : Type) : Msg RR :=
  { Id := 0, Response := false, Opcode := 0, RecursionDesired := false,
    CheckingDisabled := false, Rcode := 0, Question := [], Answer := [],
    Ns := [], Extra := [] }

/-- The method `m.SetReply(request)` of `dns.Msg`: it copies the id, the opcode
and (for a query) the rd and cd bits of the request, sets the response bit and
the success rcode, and copies the first question.  The record sections are
left as they are. -/
def Msg.SetReply {RR : Type} (m request : Msg RR) : Msg RR :=
  { m with
    Id := request.Id
    Response := true
    Opcode := request.Opcode
    RecursionDesired :=
      if request.Opcode = OpcodeQuery then request.RecursionDesired else m.RecursionDesired
    CheckingDisabled :=
      if request.Opcode = OpcodeQuery then request.CheckingDisabled else m.CheckingDisabled
    Rcode := RcodeSuccess
    Question :=
      match request.Question with
      | [] => m.Question
      | q :: _ => [q] }

/-- A `dns.ResponseWriter`, as the list of the messages written to it. -/
structure ResponseWriter (RR : Type) where
  written : List (Msg RR)
  deriving DecidableEq, Repr

/-- The method `w.WriteMsg(m)`. -/
def ResponseWriter.WriteMsg {RR : Type} (w : ResponseWriter RR) (m : Msg RR) :
    ResponseWriter RR :=
  ⟨w.written ++ [m]⟩

/-- What a call of a handler does: it panics with a value, or it returns a
status code and an error after leaving the writer in the state `w`. -/
inductive Outcome (RR : Type) where
  | panicked (v : String)
  | returned (w : ResponseWriter RR) (rcode : Nat) (err : Option String)
  deriving DecidableEq, Repr

/-! ## The collaborators -/

/-- The library functions the plugin calls. -/
structure Env (RR : Type) where
  /-- The map `dns.TypeToString`; a missing key reads as the empty string. -/
  TypeToString : Nat → String
  /-- The function `publicsuffix.EffectiveTLDPlusOne`. -/
  EffectiveTLDPlusOne : String → Except String String
  /-- The function `dns.NewRR` on one line of zone-file text: an error, or the
  value of `rr` that comes with a nil error (`RR` is the Go interface type, so
  a nil record is one of its values). -/
  NewRR : String → Except String RR

/-- One row of a result set, as what `rows.Scan(&typ, &data)` gives on it. -/
abbrev Row := Except String (String × String)

/-- The handle `s.DB`: `Query` takes the statement and its arguments and gives
an error or the rows that `rows.Next` walks through, in order. -/
structure DB where
  Query : String → List String → Except String (List Row)

/-! ## The plugin -/

/-- The function `defaultAns` (sqlite.go, lines 22-38). -/
def defaultAns {RR : Type} (env : Env RR) (w : ResponseWriter RR) (r : Msg RR)
    (qName : String) : Outcome RR :=
  let m := (Msg.new RR).SetReply r
  match env.NewRR (qName ++ " 300 IN A 91.99.160.200") with
  | .error e => .panicked e
  | .ok rr =>
    let m := { m with Answer := m.Answer ++ [rr] }
    match env.NewRR (qName ++ " 300 IN AAAA 2a01:4f8:1c0c:6ab1::1") with
    | .error e => .panicked e
    | .ok rr =>
      let m := { m with Answer := m.Answer ++ [rr] }
      .returned (w.WriteMsg m) RcodeSuccess none

/-- The statement passed to `s.DB.Query` (line 58). -/
def queryText : String :=
  "SELECT type, value FROM records WHERE apex = ? AND type = ? AND (subdomain = ? OR subdomain = '*')"

/-- Lines 52-55 of `ServeDNS`: the subdomain of `fqdn` under `domain`. -/
def subdomainOf (fqdn domain : String) : String :=
  if len fqdn > len domain then slicePrefix fqdn (len fqdn - len domain - 1) else "@"

/-- The body of the loop `for rows.Next()` (lines 69-84) on one row: the state
is `rowFound` and the message `m`. -/
def rowStep {RR : Type} (env : Env RR) (qName : String) (st : Bool × Msg RR) (row : Row) :
    Bool × Msg RR :=
  let m := st.2
  match row with
  | .error _ => (true, m)
  | .ok (typ, data) =>
    match env.NewRR (qName ++ " 300 IN " ++ typ ++ " " ++ data) with
    | .error _ => (true, m)
    | .ok rr => (true, { m with Answer := m.Answer ++ [rr] })

/-- The loop `for rows.Next()` (lines 68-85). -/
def rowsLoop {RR : Type} (env : Env RR) (qName : String) (rows : List Row)
    (st : Bool × Msg RR) : Bool × Msg RR :=
  rows.foldl (rowStep env qName) st

/-- Lines 59-90 of `ServeDNS`: what the handler does with the result of
`s.DB.Query`. -/
def answerQuery {RR : Type} (env : Env RR) (w : ResponseWriter RR) (r : Msg RR)
    (qName : String) (res : Except String (List Row)) : Outcome RR :=
  match res with
  | .error _ => defaultAns env w r qName
  | .ok rows =>
    let st := rowsLoop env qName rows (false, (Msg.new RR).SetReply r)
    if !st.1 then defaultAns env w r qName
    else .returned (w.WriteMsg st.2) RcodeSuccess none

/-- The method `SqlitePlugin.ServeDNS` (lines 40-91).  `r.Question[0]` panics on
a request without a question. -/
def ServeDNS {RR : Type} (env : Env RR) (db : DB) (w : ResponseWriter RR) (r : Msg RR) :
    Outcome RR :=
  match r.Question with
  | [] => .panicked "runtime error: index out of range [0] with length 0"
  | q :: _ =>
    let fqdn := ToLower (TrimSuffix q.Name ".")
    let qType := env.TypeToString q.Qtype
    match env.EffectiveTLDPlusOne fqdn with
    | .error _ => defaultAns env w r q.Name
    | .ok domain =>
      let subdomain := subdomainOf fqdn domain
      answerQuery env w r q.Name (db.Query queryText [domain, qType, subdomain])

/-! ## Specification-level descriptions of the reply -/

/-- The record that one row yields, in the words of the specification: a row
that scans into `(typ, data)` and whose line
`<question name> 300 IN <typ> <data>` is accepted by `dns.NewRR` yields the
record read from that line; any other row yields nothing. -/
def rowRecord {RR : Type} (env : Env RR) (qName : String) : Row → Option RR
  | .error _ => none
  | .ok (typ, data) =>
    match env.NewRR (qName ++ " 300 IN " ++ typ ++ " " ++ data) with
    | .error _ => none
    | .ok rr => some rr

/-- The reply to `r` that carries the answer records `answers`. -/
def replyWith {RR : Type} (r : Msg RR) (answers : List RR) : Msg RR :=
  { (Msg.new RR).SetReply r with Answer := answers }

/-- `dns.NewRR` accepts the two fixed lines of `defaultAns` for the owner
`qName`. -/
def DefaultsParse {RR : Type} (env : Env RR) (qName : String) : Prop :=
  (∃ a, env.NewRR (qName ++ " 300 IN A 91.99.160.200") = .ok a) ∧
    ∃ b, env.NewRR (qName ++ " 300 IN AAAA 2a01:4f8:1c0c:6ab1::1") = .ok b

/-! ## The store: the table `records` behind `s.DB`

The statement that `ServeDNS` sends is read and evaluated by a small
interpreter for the `SELECT ... FROM ... WHERE ...` statements with `=`,
`AND`, `OR`, parentheses, `?` placeholders and quoted text. -/

/-- Modelled from the spec: a row of the table `records`, whose schema is not
part of the repository.  The columns are the four that the statement of line
58 names, each holding a text value (never NULL). -/
structure Record where
  apex : String
  subdomain : String
  type : String
  value : String
  deriving DecidableEq, Repr

/-- The value of the column `name` in a record; column names are matched
without regard to case. -/
def Record.column (rec : Record) (name : String) : Option String :=
  if ToLower name = "apex" then some rec.apex
  else if ToLower name = "subdomain" then some rec.subdomain
  else if ToLower name = "type" then some rec.type
  else if ToLower name = "value" then some rec.value
  else none

/-- The lexical tokens of a statement. -/
inductive SqlToken where
  | word (s : String)
  | text (s : String)
  | param (index : Nat)
  | comma
  | eq
  | lparen
  | rparen
  | bad (c : Char)
  deriving DecidableEq, Repr

/-- The state of the lexer: the tokens read so far (last first), the
characters of the word being read (last first), the characters of the quoted
text being read if a quote is open (last first), and the number of
placeholders seen. -/
structure LexState where
  done : List SqlToken
  word : List Char
  quoted : Option (List Char)
  params : Nat

/-- The tokens read so far, with the word being read closed. -/
def LexState.flush (st : LexState) : List SqlToken :=
  if st.word.isEmpty then st.done else .word ⟨st.word.reverse⟩ :: st.done

/-- The single quote that delimits text in a statement. -/
def quoteChar : Char := Char.ofNat 39

/-- One character of the statement. -/
def lexStep (st : LexState) (c : Char) : LexState :=
  match st.quoted with
  | some lit =>
    if c = quoteChar then
      { done := .text ⟨lit.reverse⟩ :: st.done, word := [], quoted := none, params := st.params }
    else { st with quoted := some (c :: lit) }
  | none =>
    if c = quoteChar then
      { done := st.flush, word := [], quoted := some [], params := st.params }
    else if c = ' ' then
      { done := st.flush, word := [], quoted := none, params := st.params }
    else if c = ',' then
      { done := .comma :: st.flush, word := [], quoted := none, params := st.params }
    else if c = '=' then
      { done := .eq :: st.flush, word := [], quoted := none, params := st.params }
    else if c = '(' then
      { done := .lparen :: st.flush, word := [], quoted := none, params := st.params }
    else if c = ')' then
      { done := .rparen :: st.flush, word := [], quoted := none, params := st.params }
    else if c = '?' then
      { done := .param st.params :: st.flush, word := [], quoted := none,
        params := st.params + 1 }
    else if c.isAlphanum || c = '_' then { st with word := c :: st.word }
    else { done := .bad c :: st.flush, word := [], quoted := none, params := st.params }

/-- The tokens of a statement and the number of its placeholders; nothing when
a quote is left open. -/
def tokenize (text : String) : Option (List SqlToken × Nat) :=
  let st := text.data.foldl lexStep { done := [], word := [], quoted := none, params := 0 }
  match st.quoted with
  | some _ => none
  | none => some (st.flush.reverse, st.params)

/-- An operand of a comparison: a column, the placeholder number `index`
(counted from 0 in the order of the statement) or a quoted text. -/
inductive SqlOperand where
  | column (name : String)
  | param (index : Nat)
  | text (s : String)
  deriving DecidableEq, Repr

/-- A condition of a `WHERE` clause. -/
inductive SqlCond where
  | eq (a b : SqlOperand)
  | and (c d : SqlCond)
  | or (c d : SqlCond)
  deriving DecidableEq, Repr

/-- A statement `SELECT columns FROM table WHERE cond` with `params`
placeholders. -/
structure SqlSelect where
  columns : List String
  table : String
  cond : SqlCond
  params : Nat
  deriving DecidableEq, Repr

/-- The word `w` is the keyword `kw` (given in upper case). -/
def isKeyword (w kw : String) : Bool := w.data.map Char.toUpper == kw.data

/-- The operand that a token stands for. -/
def parseOperand : SqlToken → Option SqlOperand
  | .word s => some (.column s)
  | .param i => some (.param i)
  | .text s => some (.text s)
  | _ => none

/-- The three levels of the grammar of conditions: `OR` binds weaker than
`AND`, which binds weaker than a comparison or a parenthesis. -/
inductive SqlLevel where
  | disjunction
  | conjunction
  | comparison

/-- Read a condition of the given level from the front of the tokens, and
give it with the tokens that follow.  `fuel` bounds the depth of the descent. -/
def parseCond : Nat → SqlLevel → List SqlToken → Option (SqlCond × List SqlToken)
  | 0, _, _ => none
  | fuel + 1, .comparison, toks =>
    match toks with
    | .lparen :: rest =>
      match parseCond fuel .disjunction rest with
      | some (c, .rparen :: rest') => some (c, rest')
      | _ => none
    | a :: .eq :: b :: rest =>
      match parseOperand a, parseOperand b with
      | some x, some y => some (.eq x y, rest)
      | _, _ => none
    | _ => none
  | fuel + 1, .conjunction, toks =>
    match parseCond fuel .comparison toks with
    | some (c, .word w :: rest) =>
      if isKeyword w "AND" then
        match parseCond fuel .conjunction rest with
        | some (d, rest') => some (.and c d, rest')
        | none => none
      else some (c, .word w :: rest)
    | res => res
  | fuel + 1, .disjunction, toks =>
    match parseCond fuel .conjunction toks with
    | some (c, .word w :: rest) =>
      if isKeyword w "OR" then
        match parseCond fuel .disjunction rest with
        | some (d, rest') => some (.or c d, rest')
        | none => none
      else some (c, .word w :: rest)
    | res => res

/-- Read the list of selected columns from the front of the tokens. -/
def parseColumns : List SqlToken → Option (List String × List SqlToken)
  | .word c :: .comma :: rest =>
    match parseColumns rest with
    | some (cs, rest') => some (c :: cs, rest')
    | none => none
  | .word c :: rest => some ([c], rest)
  | _ => none

/-- Read a whole statement. -/
def parseSelect (text : String) : Option SqlSelect :=
  match tokenize text with
  | none => none
  | some (.word sel :: toks, params) =>
    if isKeyword sel "SELECT" then
      match parseColumns toks with
      | some (columns, .word frm :: .word table :: .word whr :: rest) =>
        if isKeyword frm "FROM" && isKeyword whr "WHERE" then
          match parseCond (3 * rest.length + 3) .disjunction rest with
          | some (cond, []) => some ⟨columns, table, cond, params⟩
          | _ => none
        else none
      | _ => none
    else none
  | _ => none

/-- The value of an operand on a record, for the arguments bound to the
placeholders. -/
def evalOperand (rec : Record) (args : List String) : SqlOperand → Option String
  | .column name => rec.column name
  | .param i => args.get? i
  | .text s => some s

/-- Modelled from the spec: whether a record satisfies a condition.  The
collation of the columns is not part of the repository; `=` on text is exact
equality, as the specification says of the type. -/
def evalCond (rec : Record) (args : List String) : SqlCond → Option Bool
  | .eq a b =>
    match evalOperand rec args a, evalOperand rec args b with
    | some x, some y => some (x == y)
    | _, _ => none
  | .and c d =>
    match evalCond rec args c, evalCond rec args d with
    | some x, some y => some (x && y)
    | _, _ => none
  | .or c d =>
    match evalCond rec args c, evalCond rec args d with
    | some x, some y => some (x || y)
    | _, _ => none

/-- The values of the selected columns of a record. -/
def projectRecord (rec : Record) : List String → Option (List String)
  | [] => some []
  | name :: names =>
    match rec.column name, projectRecord rec names with
    | some v, some vs => some (v :: vs)
    | _, _ => none

/-- What `rows.Scan(&typ, &data)` gives on a row with the values `vals`: the
two values, or an error when the row does not have exactly two columns. -/
def scanRow (vals : List String) : Row :=
  match vals with
  | [typ, data] => .ok (typ, data)
  | _ => .error "sql: expected a different number of destination arguments in Scan"

/-- The rows that a statement selects from the records, in the order of the
records; nothing when the statement names an unknown column. -/
def selectRows (stmt : SqlSelect) (args : List String) : List Record → Option (List Row)
  | [] => some []
  | rec :: rest =>
    match evalCond rec args stmt.cond, projectRecord rec stmt.columns,
      selectRows stmt args rest with
    | some keep, some vals, some rows => some (if keep then scanRow vals :: rows else rows)
    | _, _, _ => none

/-- Modelled from the spec: the database whose only table, `records`, holds
the list `store`; the engine and the data are not part of the repository.
`Query` parses the statement it is given, checks the table name and the
number of arguments, and returns the selected rows in the order of the list,
which stands for the order in which the store iterates over its rows. -/
def listDB (store : List Record) : DB where
  Query text args :=
    match parseSelect text with
    | none => .error "sql: syntax error"
    | some stmt =>
      if ToLower stmt.table ≠ "records" then .error "sql: no such table"
      else if args.length ≠ stmt.params then .error "sql: wrong number of arguments"
      else
        match selectRows stmt args store with
        | none => .error "sql: no such column"
        | some rows => .ok rows

/-- The statement of line 58 as `parseSelect` reads it: the columns `type` and
`value` of the table `records`, under the condition
`apex = ?0 AND (type = ?1 AND (subdomain = ?2 OR subdomain = '*'))`. -/
def parsedQuery : SqlSelect :=
  ⟨["type", "value"], "records",
    .and (.eq (.column "apex") (.param 0))
      (.and (.eq (.column "type") (.param 1))
        (.or (.eq (.column "subdomain") (.param 2)) (.eq (.column "subdomain") (.text "*")))),
    3⟩

/-- The rows that a lookup for `(apex, typ, sub)` reads from `store`, in the
words of the specification: the stored records whose apex equals `apex`, whose
type equals `typ` and whose subdomain equals `sub` or is the wildcard `"*"`,
in store order, each as its `(type, value)` pair. -/
def matchingRows (store : List Record) (apex typ sub : String) : List Row :=
  (store.filter fun rec =>
    decide (rec.apex = apex ∧ rec.type = typ ∧ (rec.subdomain = sub ∨ rec.subdomain = "*"))).map
    fun rec => .ok (rec.type, rec.value)

/-! ## A small instance of the collaborators, for concrete runs -/

/-- A resource record as its five presentation fields. -/
structure ExampleRR where
  Name : String
  Ttl : Nat
  Class : String
  Rrtype : String
  Rdata : String
  deriving DecidableEq, Repr

/-- The fields of `cs` between the occurrences of `c`. -/
def splitOnChar (c : Char) : List Char → List (List Char)
  | [] => [[]]
  | x :: xs =>
    if x = c then [] :: splitOnChar c xs
    else
      match splitOnChar c xs with
      | [] => [[x]]
      | f :: fs => (x :: f) :: fs

/-- A non-empty run of decimal digits. -/
def isDecimal (cs : List Char) : Bool := !cs.isEmpty && cs.all Char.isDigit

/-- The number written by a run of decimal digits. -/
def decimalValue (cs : List Char) : Nat := cs.foldl (fun n c => 10 * n + (c.toNat - 48)) 0

/-- An IPv4 address literal: four decimal fields of at most three digits, each
at most 255. -/
def isDottedQuad (cs : List Char) : Bool :=
  let parts := splitOnChar '.' cs
  parts.length == 4 &&
    parts.all fun p => isDecimal p && decide (p.length ≤ 3) && decide (decimalValue p ≤ 255)

/-- A (coarse) IPv6 address literal: hexadecimal digits and at least two colons. -/
def isIPv6Literal (cs : List Char) : Bool :=
  cs.all (fun c => c.isDigit || ['a', 'b', 'c', 'd', 'e', 'f'].contains c.toLower || c == ':') &&
    decide (2 ≤ cs.count ':')

/-- The fields of a line of zone-file text, which blanks separate; a backslash
keeps the character after it, a blank included, in the field.  `escaped` tells
that the character before was such a backslash. -/
def splitFields (escaped : Bool) : List Char → List (List Char)
  | [] => [[]]
  | x :: xs =>
    if !escaped && x = ' ' then [] :: splitFields false xs
    else
      match splitFields (!escaped && x = Char.ofNat 92) xs with
      | [] => [[x]]
      | f :: fs => (x :: f) :: fs

/-- A stand-in for `dns.NewRR` that reads the lines `owner ttl IN type rdata`
with single blanks between the fields, for the types A and AAAA, and rejects
every other line. -/
def exampleNewRR (line : String) : Except String ExampleRR :=
  match splitFields false line.data with
  | [name, ttl, cls, typ, data] =>
    if name.isEmpty then .error "dns: bad owner name"
    else if !isDecimal ttl then .error "dns: not a TTL"
    else if String.mk cls ≠ "IN" then .error "dns: unknown class"
    else if String.mk typ = "A" then
      if isDottedQuad data then .ok ⟨⟨name⟩, decimalValue ttl, "IN", "A", ⟨data⟩⟩
      else .error "dns: bad A A"
    else if String.mk typ = "AAAA" then
      if isIPv6Literal data then .ok ⟨⟨name⟩, decimalValue ttl, "IN", "AAAA", ⟨data⟩⟩
      else .error "dns: bad AAAA AAAA"
    else .error "dns: unknown RR type"
  | _ => .error "dns: malformed line"

/-- A stand-in for `publicsuffix.EffectiveTLDPlusOne` in which every top-level
label is a public suffix: the last two labels of a name of at least two
labels, an error for a name with an empty label or with a single label. -/
def exampleETLDPlusOne (domain : String) : Except String String :=
  let labels := splitOnChar '.' domain.data
  if labels.any List.isEmpty then .error "publicsuffix: empty label in domain"
  else
    match labels.reverse with
    | tld :: sld :: _ => .ok ⟨sld ++ '.' :: tld⟩
    | _ => .error "publicsuffix: cannot derive eTLD+1 for domain"

/-- The entries of `dns.TypeToString` for the common types. -/
def exampleTypeToString (t : Nat) : String :=
  if t = 1 then "A" else if t = 2 then "NS" else if t = 5 then "CNAME"
  else if t = 15 then "MX" else if t = 16 then "TXT" else if t = 28 then "AAAA" else ""

/-- The three stand-ins together. -/
def exampleEnv : Env ExampleRR where
  TypeToString := exampleTypeToString
  EffectiveTLDPlusOne := exampleETLDPlusOne
  NewRR := exampleNewRR

/-- A request with the single question `name`, `qtype`, class IN. -/
def exampleRequest (name : String) (qtype : Nat) : Msg ExampleRR :=
  { Msg.new ExampleRR with Id := 4242, RecursionDesired := true, Question := [⟨name, qtype, 1⟩] }

/-- A writer to which nothing has been written. -/
def emptyWriter : ResponseWriter ExampleRR := ⟨[]⟩

/-! ## Lemmas on the embedding -/

section Lemmas

variable {RR : Type}

theorem replyWith_answer (r : Msg RR) (answers : List RR) :
    (replyWith r answers).Answer = answers := rfl

theorem setReply_new_eq (r : Msg RR) : (Msg.new RR).SetReply r = replyWith r [] := rfl

theorem rowStep_eq (env : Env RR) (qName : String) (b : Bool) (m : Msg RR) (row : Row) :
    rowStep env qName (b, m) row =
      (true, { m with Answer := m.Answer ++ (rowRecord env qName row).toList }) := by
  rcases row with e | ⟨typ, data⟩
  · simp [rowStep, rowRecord]
  · simp only [rowStep, rowRecord]
    cases env.NewRR (qName ++ " 300 IN " ++ typ ++ " " ++ data) <;> simp

theorem rowsLoop_eq (env : Env RR) (qName : String) (rows : List Row) (b : Bool) (m : Msg RR) :
    rowsLoop env qName rows (b, m) =
      (b || !rows.isEmpty,
        { m with Answer := m.Answer ++ rows.filterMap (rowRecord env qName) }) := by
  induction rows generalizing b m with
  | nil => simp [rowsLoop]
  | cons row rows ih =>
    have hstep : rowsLoop env qName (row :: rows) (b, m) =
        rowsLoop env qName rows (rowStep env qName (b, m) row) := rfl
    rw [hstep, rowStep_eq, ih]
    cases h : rowRecord env qName row <;> simp [List.filterMap_cons, h]

theorem answerQuery_error (env : Env RR) (w : ResponseWriter RR) (r : Msg RR) (qName e : String) :
    answerQuery env w r qName (.error e) = defaultAns env w r qName := rfl

theorem answerQuery_nil (env : Env RR) (w : ResponseWriter RR) (r : Msg RR) (qName : String) :
    answerQuery env w r qName (.ok []) = defaultAns env w r qName := rfl

theorem answerQuery_rows (env : Env RR) (w : ResponseWriter RR) (r : Msg RR) (qName : String)
    (rows : List Row) (hne : rows ≠ []) :
    answerQuery env w r qName (.ok rows) =
      .returned (w.WriteMsg (replyWith r (rows.filterMap (rowRecord env qName))))
        RcodeSuccess none := by
  cases rows with
  | nil => exact absurd rfl hne
  | cons row rows =>
    simp only [answerQuery, rowsLoop_eq]
    simp [replyWith, Msg.SetReply, Msg.new]

theorem ServeDNS_question (env : Env RR) (db : DB) (w : ResponseWriter RR) (r : Msg RR)
    (q : Question) (qs : List Question) (hq : r.Question = q :: qs) :
    ServeDNS env db w r =
      match env.EffectiveTLDPlusOne (ToLower (TrimSuffix q.Name ".")) with
      | .error _ => defaultAns env w r q.Name
      | .ok domain =>
        answerQuery env w r q.Name
          (db.Query queryText
            [domain, env.TypeToString q.Qtype,
              subdomainOf (ToLower (TrimSuffix q.Name ".")) domain]) := by
  simp only [ServeDNS, hq]

theorem defaultAns_of_parse (env : Env RR) (w : ResponseWriter RR) (r : Msg RR) (qName : String)
    (a b : RR) (ha : env.NewRR (qName ++ " 300 IN A 91.99.160.200") = .ok a)
    (hb : env.NewRR (qName ++ " 300 IN AAAA 2a01:4f8:1c0c:6ab1::1") = .ok b) :
    defaultAns env w r qName = .returned (w.WriteMsg (replyWith r [a, b])) RcodeSuccess none := by
  simp [defaultAns, ha, hb, replyWith, Msg.SetReply, Msg.new]

theorem filterMap_eq_nil_iff_forall {α β : Type} (f : α → Option β) (xs : List α) :
    xs.filterMap f = [] ↔ ∀ x ∈ xs, f x = none := by
  induction xs with
  | nil => simp
  | cons x xs ih =>
    cases h : f x <;> simp [List.filterMap_cons, h, ih]

theorem defaultAns_returns (env : Env RR) (w : ResponseWriter RR) (r : Msg RR) (qName : String)
    (hdef : DefaultsParse env qName) :
    ∃ a b, defaultAns env w r qName =
      .returned (w.WriteMsg (replyWith r [a, b])) RcodeSuccess none := by
  obtain ⟨⟨a, ha⟩, b, hb⟩ := hdef
  exact ⟨a, b, defaultAns_of_parse env w r qName a b ha hb⟩

theorem subdomainOf_self (a : String) : subdomainOf a a = "@" := by
  simp [subdomainOf]

theorem subdomainOf_append (p a : String) : subdomainOf (p ++ "." ++ a) a = p := by
  have hdata : (p ++ "." ++ a).data = p.data ++ ('.' :: a.data) := by
    simp [String.data_append]
  have hlen : len (p ++ "." ++ a) = p.data.length + 1 + len a := by
    simp only [len, hdata, List.length_append, List.length_cons]
    omega
  have hgt : len (p ++ "." ++ a) > len a := by omega
  have hidx : len (p ++ "." ++ a) - len a - 1 = p.data.length := by omega
  simp only [subdomainOf, hgt, if_true, slicePrefix, hidx, hdata]
  apply String.ext
  simp

theorem parseSelect_queryText : parseSelect queryText = some parsedQuery := by
  rfl

theorem Record.column_apex (rec : Record) : rec.column "apex" = some rec.apex := rfl

theorem Record.column_subdomain (rec : Record) : rec.column "subdomain" = some rec.subdomain :=
  rfl

theorem Record.column_type (rec : Record) : rec.column "type" = some rec.type := rfl

theorem Record.column_value (rec : Record) : rec.column "value" = some rec.value := rfl

theorem selectRows_parsedQuery (store : List Record) (apex typ sub : String) :
    selectRows parsedQuery [apex, typ, sub] store = some (matchingRows store apex typ sub) := by
  induction store with
  | nil => rfl
  | cons rec rest ih =>
    have hcond : evalCond rec [apex, typ, sub] parsedQuery.cond =
        some (decide (rec.apex = apex ∧ rec.type = typ ∧
          (rec.subdomain = sub ∨ rec.subdomain = "*"))) := by
      simp only [parsedQuery, evalCond, evalOperand, Record.column_apex,
        Record.column_subdomain, Record.column_type, List.get?]
      congr 1
      rw [Bool.eq_iff_iff]
      simp
    have hproj : projectRecord rec parsedQuery.columns = some [rec.type, rec.value] := by
      simp [parsedQuery, projectRecord, Record.column_type, Record.column_value]
    have hrest : matchingRows (rec :: rest) apex typ sub =
        if decide (rec.apex = apex ∧ rec.type = typ ∧
            (rec.subdomain = sub ∨ rec.subdomain = "*")) then
          .ok (rec.type, rec.value) :: matchingRows rest apex typ sub
        else matchingRows rest apex typ sub := by
      simp only [matchingRows, List.filter_cons]
      split <;> simp
    simp only [selectRows, hcond, hproj, ih, hrest, scanRow]

theorem listDB_query (store : List Record) (apex typ sub : String) :
    (listDB store).Query queryText [apex, typ, sub] = .ok (matchingRows store apex typ sub) := by
  have htable : ToLower parsedQuery.table = "records" := by decide
  have hargs : [apex, typ, sub].length = parsedQuery.params := rfl
  simp only [listDB, parseSelect_queryText, htable, hargs, selectRows_parsedQuery, ne_eq,
    not_true_eq_false, if_false]

theorem matchingRows_append (xs ys : List Record) (apex typ sub : String) :
    matchingRows (xs ++ ys) apex typ sub =
      matchingRows xs apex typ sub ++ matchingRows ys apex typ sub := by
  simp [matchingRows, List.filter_append]

theorem matchingRows_cons_of_match (x : Record) (xs : List Record) (apex typ sub : String)
    (hx : x.apex = apex ∧ x.type = typ ∧ (x.subdomain = sub ∨ x.subdomain = "*")) :
    matchingRows (x :: xs) apex typ sub = .ok (x.type, x.value) :: matchingRows xs apex typ sub := by
  simp [matchingRows, List.filter_cons, hx]

theorem ServeDNS_listDB (env : Env RR) (store : List Record) (w : ResponseWriter RR)
    (r : Msg RR) (q : Question) (qs : List Question) (domain : String)
    (hq : r.Question = q :: qs)
    (hcls : env.EffectiveTLDPlusOne (ToLower (TrimSuffix q.Name ".")) = .ok domain) :
    ServeDNS env (listDB store) w r =
      answerQuery env w r q.Name
        (.ok (matchingRows store domain (env.TypeToString q.Qtype)
          (subdomainOf (ToLower (TrimSuffix q.Name ".")) domain))) := by
  rw [ServeDNS_question env (listDB store) w r q qs hq]
  simp only [hcls, listDB_query]

end Lemmas

/-! ## Fallback to the default answer -/

/-- C3: for a request whose first question is `q`, when the public-suffix
classification of the normalized name fails, or the store query returns an
error, or the store query returns no row, `ServeDNS` does exactly what
`defaultAns` does for the same writer, the same request and the original
question name `q.Name`: the same reply is written and the same values are
returned. -/
theorem ServeDNS_failure_classes_converge {RR : Type} (env : Env RR) (db : DB)
    (w : ResponseWriter RR) (r : Msg RR) (q : Question) (qs : List Question)
    (hq : r.Question = q :: qs)
    (hfail : (∃ e, env.EffectiveTLDPlusOne (ToLower (TrimSuffix q.Name ".")) = .error e) ∨
      ∃ domain, env.EffectiveTLDPlusOne (ToLower (TrimSuffix q.Name ".")) = .ok domain ∧
        ((∃ e, db.Query queryText [domain, env.TypeToString q.Qtype,
            subdomainOf (ToLower (TrimSuffix q.Name ".")) domain] = .error e) ∨
          db.Query queryText [domain, env.TypeToString q.Qtype,
            subdomainOf (ToLower (TrimSuffix q.Name ".")) domain] = .ok [])) :
    ServeDNS env db w r = defaultAns env w r q.Name := by
  rw [ServeDNS_question env db w r q qs hq]
  rcases hfail with ⟨e, he⟩ | ⟨domain, hd, ⟨e, he⟩ | hnil⟩
  · simp only [he]
  · simp only [hd, he, answerQuery_error]
  · simp only [hd, hnil, answerQuery_nil]

/-- The three failure classes of C3 at concrete requests: a single label
(classification fails), a database that rejects the statement, and an empty
table. -/
theorem ServeDNS_failure_classes_converge_witness :
    ServeDNS exampleEnv (listDB []) emptyWriter (exampleRequest "localhost." 1) =
        defaultAns exampleEnv emptyWriter (exampleRequest "localhost." 1) "localhost." ∧
      ServeDNS exampleEnv ⟨fun _ _ => .error "sql: database is closed"⟩ emptyWriter
          (exampleRequest "www.example.com." 1) =
        defaultAns exampleEnv emptyWriter (exampleRequest "www.example.com." 1)
          "www.example.com." ∧
      ServeDNS exampleEnv (listDB []) emptyWriter (exampleRequest "www.example.com." 28) =
        defaultAns exampleEnv emptyWriter (exampleRequest "www.example.com." 28)
          "www.example.com." :=
  ⟨ServeDNS_failure_classes_converge exampleEnv (listDB []) emptyWriter
      (exampleRequest "localhost." 1) ⟨"localhost.", 1, 1⟩ [] rfl
      (Or.inl ⟨"publicsuffix: cannot derive eTLD+1 for domain", rfl⟩),
    ServeDNS_failure_classes_converge exampleEnv ⟨fun _ _ => .error "sql: database is closed"⟩
      emptyWriter (exampleRequest "www.example.com." 1) ⟨"www.example.com.", 1, 1⟩ [] rfl
      (Or.inr ⟨"example.com", rfl, Or.inl ⟨"sql: database is closed", rfl⟩⟩),
    ServeDNS_failure_classes_converge exampleEnv (listDB []) emptyWriter
      (exampleRequest "www.example.com." 28) ⟨"www.example.com.", 28, 1⟩ [] rfl
      (Or.inr ⟨"example.com", rfl, Or.inr rfl⟩)⟩

/-! ## Rows that yield no record -/

/-- C1 (as amended): when the store query succeeds and returns at least one
row but no row yields a record, `ServeDNS` does not fall back to the default
answer: it writes the reply to the request with an empty answer list and
returns the success status with a nil error. -/
theorem ServeDNS_rows_without_records {RR : Type} (env : Env RR) (db : DB)
    (w : ResponseWriter RR) (r : Msg RR) (q : Question) (qs : List Question)
    (domain : String) (rows : List Row)
    (hq : r.Question = q :: qs)
    (hcls : env.EffectiveTLDPlusOne (ToLower (TrimSuffix q.Name ".")) = .ok domain)
    (hrows : db.Query queryText [domain, env.TypeToString q.Qtype,
      subdomainOf (ToLower (TrimSuffix q.Name ".")) domain] = .ok rows)
    (hne : rows ≠ [])
    (hall : ∀ row ∈ rows, rowRecord env q.Name row = none) :
    ServeDNS env db w r = .returned (w.WriteMsg (replyWith r [])) RcodeSuccess none ∧
      (replyWith r []).Answer = [] := by
  rw [ServeDNS_question env db w r q qs hq]
  simp only [hcls, hrows]
  rw [answerQuery_rows env w r q.Name rows hne,
    (filterMap_eq_nil_iff_forall (rowRecord env q.Name) rows).2 hall]
  exact ⟨rfl, rfl⟩

/-- C1 at a concrete store: the only row for `www.example.com` A has a value
that is not an address. -/
theorem ServeDNS_rows_without_records_witness :
    ServeDNS exampleEnv (listDB [⟨"example.com", "www", "A", "not-an-address"⟩]) emptyWriter
        (exampleRequest "www.example.com." 1) =
      .returned (emptyWriter.WriteMsg (replyWith (exampleRequest "www.example.com." 1) []))
        RcodeSuccess none ∧
      (replyWith (exampleRequest "www.example.com." 1) []).Answer = [] :=
  ServeDNS_rows_without_records exampleEnv (listDB [⟨"example.com", "www", "A", "not-an-address"⟩])
    emptyWriter (exampleRequest "www.example.com." 1) ⟨"www.example.com.", 1, 1⟩ [] "example.com"
    [.ok ("A", "not-an-address")] rfl rfl rfl (by simp) (by
      intro row hrow
      rw [List.mem_singleton] at hrow
      subst hrow
      rfl)

/-- C1 as stated fails: the store returns one row for `www.example.com` A, the
row yields no record, and the reply written carries no answer at all instead
of the two default records. -/
theorem unparsable_row_gives_empty_reply_not_default :
    (listDB [⟨"example.com", "www", "A", "not-an-address"⟩]).Query queryText
        ["example.com", "A", "www"] = .ok [.ok ("A", "not-an-address")] ∧
      rowRecord exampleEnv "www.example.com." (.ok ("A", "not-an-address")) = none ∧
      ServeDNS exampleEnv (listDB [⟨"example.com", "www", "A", "not-an-address"⟩]) emptyWriter
          (exampleRequest "www.example.com." 1) ≠
        defaultAns exampleEnv emptyWriter (exampleRequest "www.example.com." 1)
          "www.example.com." := by
  refine ⟨rfl, rfl, ?_⟩
  decide

/-- C2 (as amended): for a request whose first question is `q`, when
`dns.NewRR` accepts the two default lines for `q.Name`, `ServeDNS` writes one
reply and returns success, and the answer list of that reply is empty exactly
when the store query succeeded with at least one row and no row yielded a
record; in every other case (classification failure, lookup error, zero rows,
or some row yielding a record) the answer list is non-empty. -/
theorem ServeDNS_answer_empty_iff {RR : Type} (env : Env RR) (db : DB)
    (w : ResponseWriter RR) (r : Msg RR) (q : Question) (qs : List Question)
    (hq : r.Question = q :: qs) (hdef : DefaultsParse env q.Name) :
    ∃ m, ServeDNS env db w r = .returned (w.WriteMsg m) RcodeSuccess none ∧
      (m.Answer = [] ↔
        ∃ domain rows,
          env.EffectiveTLDPlusOne (ToLower (TrimSuffix q.Name ".")) = .ok domain ∧
          db.Query queryText [domain, env.TypeToString q.Qtype,
            subdomainOf (ToLower (TrimSuffix q.Name ".")) domain] = .ok rows ∧
          rows ≠ [] ∧ ∀ row ∈ rows, rowRecord env q.Name row = none) := by
  obtain ⟨a, b, hab⟩ := defaultAns_returns env w r q.Name hdef
  rw [ServeDNS_question env db w r q qs hq]
  cases hcls : env.EffectiveTLDPlusOne (ToLower (TrimSuffix q.Name ".")) with
  | error e =>
    refine ⟨replyWith r [a, b], hab, ?_⟩
    simp [replyWith_answer]
  | ok domain =>
    dsimp only
    cases hrows : db.Query queryText [domain, env.TypeToString q.Qtype,
        subdomainOf (ToLower (TrimSuffix q.Name ".")) domain] with
    | error e =>
      refine ⟨replyWith r [a, b], by rw [answerQuery_error]; exact hab, ?_⟩
      simp [replyWith_answer, hrows]
    | ok rows =>
      by_cases hne : rows = []
      · subst hne
        refine ⟨replyWith r [a, b], by rw [answerQuery_nil]; exact hab, ?_⟩
        simp [replyWith_answer, hrows]
      · refine ⟨replyWith r (rows.filterMap (rowRecord env q.Name)),
          answerQuery_rows env w r q.Name rows hne, ?_⟩
        rw [replyWith_answer, filterMap_eq_nil_iff_forall]
        constructor
        · intro hall
          exact ⟨domain, rows, rfl, hrows, hne, hall⟩
        · rintro ⟨domain', rows', hd, hr, _, hall⟩
          cases hd
          rw [hrows] at hr
          cases hr
          exact hall

/-- C2 at a concrete request: an empty table, so the reply carries the two
default records. -/
theorem ServeDNS_answer_empty_iff_witness :
    ∃ m, ServeDNS exampleEnv (listDB []) emptyWriter (exampleRequest "www.example.com." 1) =
        .returned (emptyWriter.WriteMsg m) RcodeSuccess none ∧
      (m.Answer = [] ↔
        ∃ domain rows,
          exampleEnv.EffectiveTLDPlusOne (ToLower (TrimSuffix "www.example.com." ".")) =
            .ok domain ∧
          (listDB []).Query queryText [domain, exampleEnv.TypeToString 1,
            subdomainOf (ToLower (TrimSuffix "www.example.com." ".")) domain] = .ok rows ∧
          rows ≠ [] ∧ ∀ row ∈ rows, rowRecord exampleEnv "www.example.com." row = none) :=
  ServeDNS_answer_empty_iff exampleEnv (listDB []) emptyWriter
    (exampleRequest "www.example.com." 1) ⟨"www.example.com.", 1, 1⟩ [] rfl
    ⟨⟨_, rfl⟩, ⟨_, rfl⟩⟩

/-- C2 as stated fails: the store returns one row whose scan fails, and the
reply that `ServeDNS` writes has an empty answer list. -/
theorem scan_failure_gives_empty_answer_list :
    ServeDNS exampleEnv
        ⟨fun _ _ => .ok [.error "sql: Scan error on column index 1: converting NULL to string is unsupported"]⟩
        emptyWriter (exampleRequest "www.example.com." 1) =
      .returned ⟨[replyWith (exampleRequest "www.example.com." 1) []]⟩ RcodeSuccess none ∧
      (replyWith (exampleRequest "www.example.com." 1) []).Answer = [] :=
  ⟨rfl, rfl⟩

/-! ## Splitting the question name -/

/-- C4: let `n` be the lower-cased name `N` without one trailing dot, and let
the public-suffix classifier return the apex `a` for `n`, where `a` is `n`
itself or `n = p ++ "." ++ a` for some `p`.  Then for every request whose
first question has the name `N`, `ServeDNS` queries the store with the apex
`a` and the subdomain `subdomainOf n a`, and that subdomain is `"@"` when
`n = a` and otherwise satisfies `subdomain ++ "." ++ a = n`. -/
theorem ServeDNS_split_reconstructs_name {RR : Type} (env : Env RR) (N a : String)
    (hcls : env.EffectiveTLDPlusOne (ToLower (TrimSuffix N ".")) = .ok a)
    (hsuf : a = ToLower (TrimSuffix N ".") ∨
      ∃ p : String, ToLower (TrimSuffix N ".") = p ++ "." ++ a) :
    (∀ (db : DB) (w : ResponseWriter RR) (r : Msg RR) (q : Question) (qs : List Question),
        r.Question = q :: qs → q.Name = N →
        ServeDNS env db w r =
          answerQuery env w r N
            (db.Query queryText
              [a, env.TypeToString q.Qtype, subdomainOf (ToLower (TrimSuffix N ".")) a])) ∧
      (ToLower (TrimSuffix N ".") = a → subdomainOf (ToLower (TrimSuffix N ".")) a = "@") ∧
      (ToLower (TrimSuffix N ".") ≠ a →
        subdomainOf (ToLower (TrimSuffix N ".")) a ++ "." ++ a = ToLower (TrimSuffix N ".")) := by
  refine ⟨?_, ?_, ?_⟩
  · intro db w r q qs hq hN
    subst hN
    rw [ServeDNS_question env db w r q qs hq]
    simp only [hcls]
  · intro h
    rw [h]
    exact subdomainOf_self a
  · intro h
    rcases hsuf with h' | ⟨p, hp⟩
    · exact absurd h'.symm h
    · rw [hp, subdomainOf_append]

/-- C4 at the name `WWW.Example.COM.`: the apex is `example.com` and the
subdomain is `www`. -/
theorem ServeDNS_split_reconstructs_name_witness :
    subdomainOf (ToLower (TrimSuffix "WWW.Example.COM." ".")) "example.com" = "www" ∧
      subdomainOf (ToLower (TrimSuffix "WWW.Example.COM." ".")) "example.com" ++ "." ++
        "example.com" = ToLower (TrimSuffix "WWW.Example.COM." ".") :=
  ⟨by decide,
    (ServeDNS_split_reconstructs_name exampleEnv "WWW.Example.COM." "example.com" rfl
      (Or.inr ⟨"www", by decide⟩)).2.2 (by decide)⟩

/-! ## Answers from the store -/

/-- C5: when the store query succeeds with rows of which at least one yields a
record, `ServeDNS` returns success after writing the reply whose answer list
is, in row order, the records of the rows that yield one
(`rowRecord`: the record that `dns.NewRR` reads from the line
`<original question name> 300 IN <row type> <row value>`); a row that yields
none contributes nothing and the rows around it are kept. -/
theorem ServeDNS_answers_are_row_records {RR : Type} (env : Env RR) (db : DB)
    (w : ResponseWriter RR) (r : Msg RR) (q : Question) (qs : List Question)
    (domain : String) (rows : List Row)
    (hq : r.Question = q :: qs)
    (hcls : env.EffectiveTLDPlusOne (ToLower (TrimSuffix q.Name ".")) = .ok domain)
    (hrows : db.Query queryText [domain, env.TypeToString q.Qtype,
      subdomainOf (ToLower (TrimSuffix q.Name ".")) domain] = .ok rows)
    (hsome : ∃ row ∈ rows, (rowRecord env q.Name row).isSome) :
    ServeDNS env db w r =
        .returned (w.WriteMsg (replyWith r (rows.filterMap (rowRecord env q.Name))))
          RcodeSuccess none ∧
      (replyWith r (rows.filterMap (rowRecord env q.Name))).Answer =
        rows.filterMap (rowRecord env q.Name) ∧
      ∀ pre post : List Row, ∀ bad : Row, rows = pre ++ bad :: post →
        rowRecord env q.Name bad = none →
        rows.filterMap (rowRecord env q.Name) =
          pre.filterMap (rowRecord env q.Name) ++ post.filterMap (rowRecord env q.Name) := by
  have hne : rows ≠ [] := by
    rintro rfl
    obtain ⟨row, hmem, _⟩ := hsome
    simp at hmem
  refine ⟨?_, rfl, ?_⟩
  · rw [ServeDNS_question env db w r q qs hq]
    simp only [hcls, hrows]
    exact answerQuery_rows env w r q.Name rows hne
  · intro pre post bad hsplit hbad
    rw [hsplit, List.filterMap_append, List.filterMap_cons, hbad]

/-- C5 at the store row `(example.com, www, A, 1.2.3.4)` and the question
`www.example.com.` A: the reply has exactly one answer, the A record
`1.2.3.4` with TTL 300 owned by the question name. -/
theorem ServeDNS_answers_are_row_records_witness :
    ServeDNS exampleEnv (listDB [⟨"example.com", "www", "A", "1.2.3.4"⟩]) emptyWriter
        (exampleRequest "www.example.com." 1) =
      .returned (emptyWriter.WriteMsg (replyWith (exampleRequest "www.example.com." 1)
        ([(.ok ("A", "1.2.3.4") : Row)].filterMap (rowRecord exampleEnv "www.example.com."))))
        RcodeSuccess none ∧
      [(.ok ("A", "1.2.3.4") : Row)].filterMap (rowRecord exampleEnv "www.example.com.") =
        [⟨"www.example.com.", 300, "IN", "A", "1.2.3.4"⟩] :=
  ⟨(ServeDNS_answers_are_row_records exampleEnv (listDB [⟨"example.com", "www", "A", "1.2.3.4"⟩])
      emptyWriter (exampleRequest "www.example.com." 1) ⟨"www.example.com.", 1, 1⟩ []
      "example.com" [.ok ("A", "1.2.3.4")] rfl rfl rfl
      ⟨.ok ("A", "1.2.3.4"), List.mem_singleton.2 rfl, rfl⟩).1,
    by decide⟩

/-! ## The default answer -/

/-- C8: for every request with at least one question, whatever the outcome of
classification, lookup and synthesis (any classifier, any database result, any
rows), `ServeDNS` returns `dns.RcodeSuccess` with a nil error after writing one
reply, given that `dns.NewRR` reads the two default lines for the question name
(`DefaultsParse`: the assumption on the parser, which is not part of the
repository); and no return of `ServeDNS` carries another status or an
error. -/
theorem ServeDNS_returns_success {RR : Type} (env : Env RR) (db : DB)
    (w : ResponseWriter RR) (r : Msg RR) (q : Question) (qs : List Question)
    (hq : r.Question = q :: qs) :
    (DefaultsParse env q.Name →
        ∃ m, ServeDNS env db w r = .returned (w.WriteMsg m) RcodeSuccess none) ∧
      (∀ w' rcode err, ServeDNS env db w r = .returned w' rcode err →
        rcode = RcodeSuccess ∧ err = none) := by
  have hcases : ServeDNS env db w r = defaultAns env w r q.Name ∨
      ∃ m, ServeDNS env db w r = .returned (w.WriteMsg m) RcodeSuccess none := by
    rw [ServeDNS_question env db w r q qs hq]
    cases env.EffectiveTLDPlusOne (ToLower (TrimSuffix q.Name ".")) with
    | error e => exact Or.inl rfl
    | ok domain =>
      dsimp only
      cases db.Query queryText [domain, env.TypeToString q.Qtype,
          subdomainOf (ToLower (TrimSuffix q.Name ".")) domain] with
      | error e => exact Or.inl rfl
      | ok rows =>
        cases rows with
        | nil => exact Or.inl rfl
        | cons row rows =>
          exact Or.inr ⟨_, answerQuery_rows env w r q.Name (row :: rows) (by simp)⟩
  have hdefault : ∀ w' rcode err, defaultAns env w r q.Name = .returned w' rcode err →
      rcode = RcodeSuccess ∧ err = none := by
    intro w' rcode err h
    unfold defaultAns at h
    cases ha : env.NewRR (q.Name ++ " 300 IN A 91.99.160.200") with
    | error e => simp [ha] at h
    | ok a =>
      cases hb : env.NewRR (q.Name ++ " 300 IN AAAA 2a01:4f8:1c0c:6ab1::1") with
      | error e => simp [ha, hb] at h
      | ok b =>
        simp only [ha, hb, Outcome.returned.injEq] at h
        exact ⟨h.2.1.symm, h.2.2.symm⟩
  refine ⟨?_, ?_⟩
  · intro hdef
    rcases hcases with h | ⟨m, h⟩
    · obtain ⟨a, b, hab⟩ := defaultAns_returns env w r q.Name hdef
      exact ⟨_, h.trans hab⟩
    · exact ⟨_, h⟩
  · intro w' rcode err h
    rcases hcases with h' | ⟨m, h'⟩
    · exact hdefault w' rcode err (h'.symm.trans h)
    · rw [h'] at h
      simp only [Outcome.returned.injEq] at h
      exact ⟨h.2.1.symm, h.2.2.symm⟩

/-- C8 at one request for each kind of failure: a name with a single label,
`my\ host.` (classification fails), a database that rejects the query, and a
store whose only row does not parse; each time the handler returns success
with a nil error. -/
theorem ServeDNS_returns_success_witness :
    (∃ m, ServeDNS exampleEnv (listDB []) emptyWriter (exampleRequest "my\\ host." 1) =
        .returned (emptyWriter.WriteMsg m) RcodeSuccess none) ∧
      (∃ m, ServeDNS exampleEnv ⟨fun _ _ => .error "sql: database is closed"⟩ emptyWriter
          (exampleRequest "www.example.com." 1) =
        .returned (emptyWriter.WriteMsg m) RcodeSuccess none) ∧
      ∃ m, ServeDNS exampleEnv (listDB [⟨"example.com", "www", "A", "not-an-address"⟩])
          emptyWriter (exampleRequest "www.example.com." 1) =
        .returned (emptyWriter.WriteMsg m) RcodeSuccess none :=
  ⟨(ServeDNS_returns_success exampleEnv (listDB []) emptyWriter
      (exampleRequest "my\\ host." 1) ⟨"my\\ host.", 1, 1⟩ [] rfl).1 ⟨⟨_, rfl⟩, ⟨_, rfl⟩⟩,
    (ServeDNS_returns_success exampleEnv ⟨fun _ _ => .error "sql: database is closed"⟩
      emptyWriter (exampleRequest "www.example.com." 1) ⟨"www.example.com.", 1, 1⟩ [] rfl).1
      ⟨⟨_, rfl⟩, ⟨_, rfl⟩⟩,
    (ServeDNS_returns_success exampleEnv
      (listDB [⟨"example.com", "www", "A", "not-an-address"⟩])
      emptyWriter (exampleRequest "www.example.com." 1) ⟨"www.example.com.", 1, 1⟩ [] rfl).1
      ⟨⟨_, rfl⟩, ⟨_, rfl⟩⟩⟩

/-! ## Lookup in a store given as a list of records -/

/-- C7: with the store modelled as the list `store` of records
`(apex, subdomain, type, value)`, for a question whose normalized name has the
apex `domain`, the statement that `ServeDNS` sends (line 58), read and
evaluated on the list with the arguments `ServeDNS` binds to its placeholders,
returns exactly the stored records whose apex equals `domain`, whose type
equals the type string of the question type, and whose subdomain equals the
split subdomain or `"*"`, in store order and as their `(type, value)` pairs
(`matchingRows`); the handler answers from those rows. -/
theorem ServeDNS_reads_matching_records {RR : Type} (env : Env RR) (store : List Record)
    (w : ResponseWriter RR) (r : Msg RR) (q : Question) (qs : List Question) (domain : String)
    (hq : r.Question = q :: qs)
    (hcls : env.EffectiveTLDPlusOne (ToLower (TrimSuffix q.Name ".")) = .ok domain) :
    (listDB store).Query queryText
        [domain, env.TypeToString q.Qtype,
          subdomainOf (ToLower (TrimSuffix q.Name ".")) domain] =
        .ok (matchingRows store domain (env.TypeToString q.Qtype)
          (subdomainOf (ToLower (TrimSuffix q.Name ".")) domain)) ∧
      ServeDNS env (listDB store) w r =
        answerQuery env w r q.Name
          (.ok (matchingRows store domain (env.TypeToString q.Qtype)
            (subdomainOf (ToLower (TrimSuffix q.Name ".")) domain))) :=
  ⟨listDB_query store _ _ _, ServeDNS_listDB env store w r q qs domain hq hcls⟩

/-- C7 at two stores.  In the first the only row of `example.com` A is the
wildcard row `5.6.7.8`, next to rows of another apex and another type: the
question `anything.example.com.` A reads the wildcard row and the reply
carries the record derived from it.  In the second the question
`www.example.com.` A reads the row of the subdomain `www` and the wildcard
row, in store order, and not the rows of another subdomain, type or apex. -/
theorem ServeDNS_reads_matching_records_witness :
    (ServeDNS exampleEnv
          (listDB [⟨"example.org", "*", "A", "9.9.9.9"⟩, ⟨"example.com", "*", "A", "5.6.7.8"⟩,
            ⟨"example.com", "*", "AAAA", "::1"⟩])
          emptyWriter (exampleRequest "anything.example.com." 1) =
        answerQuery exampleEnv emptyWriter (exampleRequest "anything.example.com." 1)
          "anything.example.com." (.ok [.ok ("A", "5.6.7.8")]) ∧
      answerQuery exampleEnv emptyWriter (exampleRequest "anything.example.com." 1)
          "anything.example.com." (.ok [.ok ("A", "5.6.7.8")]) =
        .returned (emptyWriter.WriteMsg (replyWith (exampleRequest "anything.example.com." 1)
          [⟨"anything.example.com.", 300, "IN", "A", "5.6.7.8"⟩])) RcodeSuccess none) ∧
      (listDB [⟨"example.com", "mail", "A", "7.7.7.7"⟩, ⟨"example.com", "www", "A", "1.2.3.4"⟩,
          ⟨"example.com", "www", "AAAA", "::2"⟩, ⟨"example.org", "www", "A", "9.9.9.9"⟩,
          ⟨"example.com", "*", "A", "5.6.7.8"⟩]).Query queryText
          ["example.com", "A", "www"] =
        .ok [.ok ("A", "1.2.3.4"), .ok ("A", "5.6.7.8")] :=
  ⟨⟨(ServeDNS_reads_matching_records exampleEnv
        [⟨"example.org", "*", "A", "9.9.9.9"⟩, ⟨"example.com", "*", "A", "5.6.7.8"⟩,
          ⟨"example.com", "*", "AAAA", "::1"⟩]
        emptyWriter (exampleRequest "anything.example.com." 1)
        ⟨"anything.example.com.", 1, 1⟩ [] "example.com" rfl rfl).2,
      rfl⟩,
    (ServeDNS_reads_matching_records exampleEnv
      [⟨"example.com", "mail", "A", "7.7.7.7"⟩, ⟨"example.com", "www", "A", "1.2.3.4"⟩,
        ⟨"example.com", "www", "AAAA", "::2"⟩, ⟨"example.org", "www", "A", "9.9.9.9"⟩,
        ⟨"example.com", "*", "A", "5.6.7.8"⟩]
      emptyWriter (exampleRequest "www.example.com." 1) ⟨"www.example.com.", 1, 1⟩ []
      "example.com" rfl rfl).1⟩

/-- C9: let the store hold, at two places of the list (the order in which the
store iterates over its rows), a record `x` and a record `y` of the apex and
type of the question, one with the queried subdomain and the other with the
subdomain `"*"`, both with a value that `dns.NewRR` accepts.  Then the
statement of line 58 returns both rows and the reply carries the record of `x`
and the record of `y`, each at its place among the records of the other
matching rows: the exact match does not suppress the wildcard row and equal
records are kept twice. -/
theorem ServeDNS_exact_and_wildcard_both_answer {RR : Type} (env : Env RR)
    (pre mid post : List Record) (x y : Record) (w : ResponseWriter RR) (r : Msg RR)
    (q : Question) (qs : List Question) (domain : String) (rx ry : RR)
    (hq : r.Question = q :: qs)
    (hcls : env.EffectiveTLDPlusOne (ToLower (TrimSuffix q.Name ".")) = .ok domain)
    (hx : x.apex = domain ∧ x.type = env.TypeToString q.Qtype)
    (hy : y.apex = domain ∧ y.type = env.TypeToString q.Qtype)
    (hsub : (x.subdomain = subdomainOf (ToLower (TrimSuffix q.Name ".")) domain ∧
        y.subdomain = "*") ∨
      (x.subdomain = "*" ∧
        y.subdomain = subdomainOf (ToLower (TrimSuffix q.Name ".")) domain))
    (hrx : env.NewRR (q.Name ++ " 300 IN " ++ x.type ++ " " ++ x.value) = .ok rx)
    (hry : env.NewRR (q.Name ++ " 300 IN " ++ y.type ++ " " ++ y.value) = .ok ry) :
    ServeDNS env (listDB (pre ++ x :: mid ++ y :: post)) w r =
      .returned (w.WriteMsg (replyWith r
        ((matchingRows pre domain (env.TypeToString q.Qtype)
            (subdomainOf (ToLower (TrimSuffix q.Name ".")) domain)).filterMap
            (rowRecord env q.Name) ++
          rx :: (matchingRows mid domain (env.TypeToString q.Qtype)
            (subdomainOf (ToLower (TrimSuffix q.Name ".")) domain)).filterMap
            (rowRecord env q.Name) ++
          ry :: (matchingRows post domain (env.TypeToString q.Qtype)
            (subdomainOf (ToLower (TrimSuffix q.Name ".")) domain)).filterMap
            (rowRecord env q.Name)))) RcodeSuccess none := by
  have hxm : x.apex = domain ∧ x.type = env.TypeToString q.Qtype ∧
      (x.subdomain = subdomainOf (ToLower (TrimSuffix q.Name ".")) domain ∨
        x.subdomain = "*") := by
    rcases hsub with h | h
    · exact ⟨hx.1, hx.2, Or.inl h.1⟩
    · exact ⟨hx.1, hx.2, Or.inr h.1⟩
  have hym : y.apex = domain ∧ y.type = env.TypeToString q.Qtype ∧
      (y.subdomain = subdomainOf (ToLower (TrimSuffix q.Name ".")) domain ∨
        y.subdomain = "*") := by
    rcases hsub with h | h
    · exact ⟨hy.1, hy.2, Or.inr h.2⟩
    · exact ⟨hy.1, hy.2, Or.inl h.2⟩
  have hrecx : rowRecord env q.Name (.ok (x.type, x.value)) = some rx := by
    simp [rowRecord, hrx]
  have hrecy : rowRecord env q.Name (.ok (y.type, y.value)) = some ry := by
    simp [rowRecord, hry]
  have hrows : matchingRows (pre ++ x :: mid ++ y :: post) domain (env.TypeToString q.Qtype)
      (subdomainOf (ToLower (TrimSuffix q.Name ".")) domain) =
      matchingRows pre domain (env.TypeToString q.Qtype)
          (subdomainOf (ToLower (TrimSuffix q.Name ".")) domain) ++
        .ok (x.type, x.value) ::
          (matchingRows mid domain (env.TypeToString q.Qtype)
              (subdomainOf (ToLower (TrimSuffix q.Name ".")) domain) ++
            .ok (y.type, y.value) ::
              matchingRows post domain (env.TypeToString q.Qtype)
                (subdomainOf (ToLower (TrimSuffix q.Name ".")) domain)) := by
    have hassoc : pre ++ x :: mid ++ y :: post = pre ++ (x :: (mid ++ y :: post)) := by simp
    rw [hassoc, matchingRows_append, matchingRows_cons_of_match x _ _ _ _ hxm,
      matchingRows_append, matchingRows_cons_of_match y _ _ _ _ hym]
  rw [ServeDNS_listDB env _ w r q qs domain hq hcls, hrows,
    answerQuery_rows env w r q.Name _ (by simp)]
  simp [List.filterMap_append, List.filterMap_cons, hrecx, hrecy]

/-- C9 at a store with the exact row `www` and the wildcard row of
`example.com` A, both with the value `1.2.3.4`: the reply to
`www.example.com.` A carries the same record twice. -/
theorem ServeDNS_exact_and_wildcard_both_answer_witness :
    ServeDNS exampleEnv
        (listDB ([] ++ ⟨"example.com", "www", "A", "1.2.3.4"⟩ :: [] ++
          ⟨"example.com", "*", "A", "1.2.3.4"⟩ :: []))
        emptyWriter (exampleRequest "www.example.com." 1) =
      .returned (emptyWriter.WriteMsg (replyWith (exampleRequest "www.example.com." 1)
        [⟨"www.example.com.", 300, "IN", "A", "1.2.3.4"⟩,
          ⟨"www.example.com.", 300, "IN", "A", "1.2.3.4"⟩])) RcodeSuccess none :=
  ServeDNS_exact_and_wildcard_both_answer exampleEnv [] [] []
    ⟨"example.com", "www", "A", "1.2.3.4"⟩ ⟨"example.com", "*", "A", "1.2.3.4"⟩
    emptyWriter (exampleRequest "www.example.com." 1) ⟨"www.example.com.", 1, 1⟩ []
    "example.com" ⟨"www.example.com.", 300, "IN", "A", "1.2.3.4"⟩
    ⟨"www.example.com.", 300, "IN", "A", "1.2.3.4"⟩ rfl rfl ⟨rfl, rfl⟩ ⟨rfl, rfl⟩
    (Or.inl ⟨by decide, rfl⟩) rfl rfl

/-- C10: when the normalized question name is its own registrable apex, the
split subdomain is `"@"`, the statement of line 58 bound to it reads the stored
records of that apex and type whose subdomain is `"@"` or `"*"` (so every
wildcard record of that apex and type is read), and a store that holds only a
wildcard record for that apex
and type, with a value that `dns.NewRR` accepts, makes the reply carry the
record derived from the wildcard row, not the default answer. -/
theorem ServeDNS_apex_query_reads_wildcard {RR : Type} (env : Env RR) (store : List Record)
    (w : ResponseWriter RR) (r : Msg RR) (q : Question) (qs : List Question)
    (hq : r.Question = q :: qs)
    (hcls : env.EffectiveTLDPlusOne (ToLower (TrimSuffix q.Name ".")) =
      .ok (ToLower (TrimSuffix q.Name "."))) :
    subdomainOf (ToLower (TrimSuffix q.Name ".")) (ToLower (TrimSuffix q.Name ".")) = "@" ∧
      ServeDNS env (listDB store) w r =
        answerQuery env w r q.Name
          (.ok (matchingRows store (ToLower (TrimSuffix q.Name "."))
            (env.TypeToString q.Qtype) "@")) ∧
      (∀ rec ∈ store, rec.apex = ToLower (TrimSuffix q.Name ".") →
        rec.type = env.TypeToString q.Qtype → rec.subdomain = "*" →
        (.ok (rec.type, rec.value) : Row) ∈
          matchingRows store (ToLower (TrimSuffix q.Name ".")) (env.TypeToString q.Qtype) "@") ∧
      ∀ (value : String) (rr : RR),
        store = [⟨ToLower (TrimSuffix q.Name "."), "*", env.TypeToString q.Qtype, value⟩] →
        env.NewRR (q.Name ++ " 300 IN " ++ env.TypeToString q.Qtype ++ " " ++ value) = .ok rr →
        ServeDNS env (listDB store) w r =
          .returned (w.WriteMsg (replyWith r [rr])) RcodeSuccess none := by
  have hserve := ServeDNS_listDB env store w r q qs _ hq hcls
  rw [subdomainOf_self] at hserve
  refine ⟨subdomainOf_self _, hserve, ?_, ?_⟩
  · intro rec hmem hapex htype hsub
    simp only [matchingRows, List.mem_map, List.mem_filter, decide_eq_true_eq]
    exact ⟨rec, ⟨hmem, hapex, htype, Or.inr hsub⟩, rfl⟩
  · intro value rr hstore hrr
    rw [hserve, hstore, matchingRows_cons_of_match _ _ _ _ _ ⟨rfl, rfl, Or.inr rfl⟩]
    rw [answerQuery_rows env w r q.Name _ (by simp)]
    simp [matchingRows, rowRecord, hrr]

/-- C10 at the store that holds only the wildcard row
`(example.com, *, A, 5.6.7.8)` and the question `example.com.` A: the reply
carries the wildcard-derived record, which differs from the default answer. -/
theorem ServeDNS_apex_query_reads_wildcard_witness :
    ServeDNS exampleEnv (listDB [⟨"example.com", "*", "A", "5.6.7.8"⟩]) emptyWriter
        (exampleRequest "example.com." 1) =
      .returned (emptyWriter.WriteMsg (replyWith (exampleRequest "example.com." 1)
        [⟨"example.com.", 300, "IN", "A", "5.6.7.8"⟩])) RcodeSuccess none ∧
      ServeDNS exampleEnv (listDB [⟨"example.com", "*", "A", "5.6.7.8"⟩]) emptyWriter
          (exampleRequest "example.com." 1) ≠
        defaultAns exampleEnv emptyWriter (exampleRequest "example.com." 1) "example.com." :=
  ⟨(ServeDNS_apex_query_reads_wildcard exampleEnv [⟨"example.com", "*", "A", "5.6.7.8"⟩]
      emptyWriter (exampleRequest "example.com." 1) ⟨"example.com.", 1, 1⟩ [] rfl rfl).2.2.2
      "5.6.7.8" ⟨"example.com.", 300, "IN", "A", "5.6.7.8"⟩ rfl rfl,
    by decide⟩

end CensurDNS
